import Mathlib

/-!
Verification of `contracts/remix/interaction_script.js`.

The script is sequential glue over a chain-RPC client: every `await`ed
operation is a remote call that either resolves to a value or rejects with an
error.  The embedding below represents the four exported functions as
interaction trees over those calls, and runs a tree against an arbitrary
environment (which answers every call from the history of the calls issued
before it), producing the trace of observable events and the final result.

`BigNumber` values are natural numbers: the script only obtains them from
`uint256` return values and from `parseEther` on non-negative numerals, and
`BigNumber` arithmetic is arbitrary precision.
-/

namespace InteractionScript

/-! ## Values -/

/-- Account and contract addresses. -/
abbrev Address := String

/-- JavaScript error values. -/
abbrev Err := String

/-- Handle of a submitted transaction (its hash). -/
abbrev Tx := Nat

/-! ## BigNumber arithmetic -/

/-- The operation `BigNumber.mul`. -/
def bnMul (a b : Nat) : Nat := a * b

/-- The operation `BigNumber.add`. -/
def bnAdd (a b : Nat) : Nat := a + b

/-- The operation `BigNumber.div`: truncating division, throwing on a zero divisor. -/
def bnDiv (a b : Nat) : Except Err Nat :=
  if b = 0 then .error "division-by-zero" else .ok (a / b)

/-- Line 146: `reserve1.mul(swapAmount).div(reserve0.add(swapAmount))`. -/
def expectedOutput (reserve0 reserve1 swapAmount : Nat) : Except Err Nat :=
  bnDiv (bnMul reserve1 swapAmount) (bnAdd reserve0 swapAmount)

/-- Line 152: `expectedOutput.mul(997).div(1000)`. -/
def amount1Out (expected : Nat) : Except Err Nat :=
  bnDiv (bnMul expected 997) 1000

/-! ## `parseEther` / `formatEther` -/

/-- Value of a character as a decimal digit. -/
def digitValue (c : Char) : Option Nat :=
  if c.isDigit then some (c.toNat - 48) else none

/-- Reads a list of decimal digits, most significant first, onto an accumulator. -/
def readDigits : List Char → Nat → Option Nat
  | [], acc => some acc
  | c :: cs, acc =>
    match digitValue c with
    | some d => readDigits cs (acc * 10 + d)
    | none => none

/-- Reads a non-empty decimal numeral. -/
def readDecimal (s : String) : Option Nat :=
  match s.data with
  | [] => none
  | cs => readDigits cs 0

/-- The library function `ethers.utils.parseEther` on whole-number numerals:
a string of decimal digits denoting `n` yields `n * 10^18` wei; a string
that is not a decimal value (empty, exponent notation, letters) is rejected.
Fractional and signed numerals are outside this fragment. -/
def utilsParseEther (s : String) : Except Err Nat :=
  match readDecimal s with
  | some n => .ok (n * 10 ^ 18)
  | none => .error "invalid decimal value"

/-- Lines 52-54: `ethers.utils.parseEther(ether.toString())`. -/
def parseEther {α : Type} [ToString α] (ether : α) : Except Err Nat :=
  utilsParseEther (toString ether)

/-- Drops trailing zero digits of a fraction, keeping at least one digit. -/
def trimFraction (ds : List Char) : List Char :=
  match (ds.reverse.dropWhile (fun c => c == '0')).reverse with
  | [] => ['0']
  | r => r

/-- The library function `ethers.utils.formatEther` on non-negative values:
the whole part, a point, and the 18-digit fraction without trailing zeros. -/
def utilsFormatEther (wei : Nat) : String :=
  let frac := Nat.toDigits 10 (wei % 10 ^ 18)
  let padded := List.replicate (18 - frac.length) '0' ++ frac
  toString (wei / 10 ^ 18) ++ "." ++ String.mk (trimFraction padded)

/-- Lines 47-49: `ethers.utils.formatEther(wei)`. -/
def formatEther (wei : Nat) : String := utilsFormatEther wei

/-! ## Caller-supplied amounts -/

/-- The decimal digits of a whole number without its trailing zeros. -/
def significantDigits (v : Nat) : List Char :=
  ((Nat.toDigits 10 v).reverse.dropWhile (fun c => c == '0')).reverse

/-- A JavaScript Number that the caller writes as a whole number and that
`toString()` reproduces digit for digit: a whole number up to `2^53`, or a
larger one with at most 15 significant digits.  Other whole numbers (such as
`2^60`, printed as 1152921504606847000) are printed by a Number with digits
that depend on binary rounding and are not values of this type. -/
structure JsNumber where
  value : Nat
  exact : value ≤ 2 ^ 53 ∨ (significantDigits value).length ≤ 15

/-- The method `Number.prototype.toString` on these values: below `10^21` the
decimal numeral; from `10^21` on, exponent notation, that is the first
significant digit, a point and the further significant digits if there are
any, then `e+` and the decimal exponent. -/
def numberToString (x : JsNumber) : String :=
  if x.value < 10 ^ 21 then toString x.value
  else
    let exponent := toString ((Nat.toDigits 10 x.value).length - 1)
    match significantDigits x.value with
    | [] => "0"
    | [d] => String.mk [d] ++ "e+" ++ exponent
    | d :: ds => String.mk (d :: '.' :: ds) ++ "e+" ++ exponent

instance : ToString JsNumber where
  toString := numberToString

/-- The Number holding a whole number up to `2^53`. -/
def JsNumber.ofSafe (n : Nat) (h : n ≤ 2 ^ 53) : JsNumber := ⟨n, Or.inl h⟩

/-- The Number `1e21`. -/
def JsNumber.tenPow21 : JsNumber := ⟨10 ^ 21, Or.inr (by decide)⟩

/-! ## Remote calls -/

/-- Constructor argument of a deployment. -/
inductive Arg
  | str (s : String)
  | num (n : Nat)
  deriving DecidableEq, Repr

/-- The awaited operations of the script.  Contract methods carry the address
of the contract they are invoked on as their first field. -/
inductive Call
  | getSigners
  | getContractFactory (contractName : String)
  | deploy (contractName : String) (args : List Arg)
  | deployed (contract : Address)
  | createPool (factory tokenA tokenB : Address) (fee : Nat)
  | wait (tx : Tx)
  | getPool (factory tokenA tokenB : Address) (fee : Nat)
  | approve (token spender : Address) (amount : Nat)
  | addLiquidity (pool : Address) (amount0 amount1 : Nat) (recipient : Address)
  | getReserves (pool : Address)
  | swap (pool : Address) (amount0Out amount1Out : Nat) (recipient : Address)
  | balanceOf (token holder : Address)
  | name (token : Address)
  deriving DecidableEq, Repr

/-- What a call resolves to.  `getSigners` resolves to the account list, of
which the script takes the first entry; a deployment resolves to the contract
object, identified by its address; a state-changing method resolves, on
submission, to the transaction handle. -/
def Resp : Call → Type
  | .getSigners => Address
  | .getContractFactory _ => Unit
  | .deploy _ _ => Address
  | .deployed _ => Unit
  | .createPool _ _ _ _ => Tx
  | .wait _ => Unit
  | .getPool _ _ _ _ => Address
  | .approve _ _ _ => Tx
  | .addLiquidity _ _ _ _ => Tx
  | .getReserves _ => Nat × Nat
  | .swap _ _ _ _ => Tx
  | .balanceOf _ _ => Nat
  | .name _ => String

/-! ## Scripts as interaction trees -/

/-- An asynchronous function body: it returns, throws, prints, or awaits a
remote call and continues with its value or with its rejection. -/
inductive Script (α : Type) : Type
  | ret (a : α)
  | throw (e : Err)
  | log (line : String) (k : Script α)
  | consoleError (label : String) (e : Err) (k : Script α)
  | call (c : Call) (onOk : Resp c → Script α) (onErr : Err → Script α)

namespace Script

/-- Sequencing. -/
def bind {α β : Type} : Script α → (α → Script β) → Script β
  | .ret a, f => f a
  | .throw e, _ => .throw e
  | .log l k, f => .log l (bind k f)
  | .consoleError l e k, f => .consoleError l e (bind k f)
  | .call c ok err, f => .call c (fun r => bind (ok r) f) (fun e => bind (err e) f)

/-- The statement `try { body } catch (error) { handler }`. -/
def tryCatch {α : Type} : Script α → (Err → Script α) → Script α
  | .ret a, _ => .ret a
  | .throw e, h => h e
  | .log l k, h => .log l (tryCatch k h)
  | .consoleError l e k, h => .consoleError l e (tryCatch k h)
  | .call c ok err, h => .call c (fun r => tryCatch (ok r) h) (fun e => tryCatch (err e) h)

instance : Monad Script where
  pure := Script.ret
  bind := Script.bind

instance : MonadExcept Err Script where
  throw := Script.throw
  tryCatch := Script.tryCatch

end Script

/-- The expression `await c`: an unhandled rejection is thrown. -/
def await (c : Call) : Script (Resp c) := .call c .ret .throw

/-- The call `console.log(line)`. -/
def consoleLog (line : String) : Script Unit := .log line (.ret ())

/-- The call `console.error(label, e)`. -/
def logError (label : String) (e : Err) : Script Unit := .consoleError label e (.ret ())

/-- A local computation that may throw. -/
def evalLocal {α : Type} : Except Err α → Script α
  | .ok a => .ret a
  | .error e => .throw e

/-! ## Execution -/

/-- A resolved value, as it is recorded in a trace. -/
inductive Value
  | unit
  | addr (a : Address)
  | tx (t : Tx)
  | num (n : Nat)
  | pair (a b : Nat)
  | str (s : String)
  deriving DecidableEq, Repr

/-- The recorded form of what a call resolved to. -/
def Resp.toValue : (c : Call) → Resp c → Value
  | .getSigners, a => .addr a
  | .getContractFactory _, _ => .unit
  | .deploy _ _, a => .addr a
  | .deployed _, _ => .unit
  | .createPool _ _ _ _, t => .tx t
  | .wait _, _ => .unit
  | .getPool _ _ _ _, a => .addr a
  | .approve _ _ _, t => .tx t
  | .addLiquidity _ _ _ _, t => .tx t
  | .getReserves _, p => .pair p.1 p.2
  | .swap _ _ _ _, t => .tx t
  | .balanceOf _ _, n => .num n
  | .name _, s => .str s

/-- How an awaited call ended. -/
inductive Answer
  | resolved (v : Value)
  | rejected (e : Err)
  deriving DecidableEq, Repr

/-- Observable events of a run, in order: a remote call with its answer, a
line printed by `console.log`, an error printed by `console.error`. -/
inductive Event
  | call (c : Call) (a : Answer)
  | log (line : String)
  | error (label : String) (e : Err)
  deriving DecidableEq, Repr

/-- Result of a run: the events, and the value returned or the error thrown
to the caller. -/
structure Outcome (α : Type) where
  trace : List Event
  result : Except Err α

/-- The remote side: it answers a call given the calls issued before it. -/
abbrev Env := List Call → (c : Call) → Except Err (Resp c)

/-- Runs a script against an environment; `hist` holds the calls issued so
far. -/
def run {α : Type} (env : Env) : Script α → List Call → Outcome α
  | .ret a, _ => ⟨[], .ok a⟩
  | .throw e, _ => ⟨[], .error e⟩
  | .log l k, hist =>
    let o := run env k hist
    ⟨.log l :: o.trace, o.result⟩
  | .consoleError l e k, hist =>
    let o := run env k hist
    ⟨.error l e :: o.trace, o.result⟩
  | .call c ok err, hist =>
    match env hist c with
    | .ok r =>
      let o := run env (ok r) (hist ++ [c])
      ⟨.call c (.resolved (Resp.toValue c r)) :: o.trace, o.result⟩
    | .error e =>
      let o := run env (err e) (hist ++ [c])
      ⟨.call c (.rejected e) :: o.trace, o.result⟩

/-! ## Reading traces -/

/-- The event records a call that was rejected. -/
def Event.isRejection : Event → Bool
  | .call _ (.rejected _) => true
  | _ => false

/-- The event is a line on the error console. -/
def Event.isError : Event → Bool
  | .error _ _ => true
  | _ => false

/-- The event is a remote call. -/
def Event.isCall : Event → Bool
  | .call _ _ => true
  | _ => false

/-- The event is a line printed by `console.log`. -/
def Event.isLog : Event → Bool
  | .log _ => true
  | _ => false

/-- The remote calls of a trace, in the order they were issued. -/
def calls : List Event → List Call
  | [] => []
  | .call c _ :: rest => c :: calls rest
  | _ :: rest => calls rest

/-- Every remote call of the trace succeeded. -/
def allResolved (trace : List Event) : Prop := ∀ ev ∈ trace, ev.isRejection = false

/-- No event of the trace is a line on the error console. -/
def noErrorLine (trace : List Event) : Prop := ∀ ev ∈ trace, ev.isError = false

/-- Nothing is printed in the trace, on either console. -/
def silent (trace : List Event) : Prop := ∀ ev ∈ trace, ev.isLog = false ∧ ev.isError = false

/-- Calls that submit a transaction: deployments and the non-view methods
`createPool`, `approve`, `addLiquidity`, `swap` of the ABI lists (lines 4-38). -/
def Call.isStateChanging : Call → Bool
  | .deploy _ _ => true
  | .createPool _ _ _ _ => true
  | .approve _ _ _ => true
  | .addLiquidity _ _ _ _ => true
  | .swap _ _ _ _ => true
  | _ => false

/-- Calls addressed to a contract: deployments and contract methods, as
opposed to the acquisition of the signer, the lookup of a contract factory
and the waits for a confirmation. -/
def Call.isContractCall : Call → Bool
  | .getSigners => false
  | .getContractFactory _ => false
  | .deployed _ => false
  | .wait _ => false
  | _ => true

/-! ## The script -/

/-- Value returned by `deployAndTest` (lines 173-178). -/
structure Deployment where
  factory : Address
  tokenA : Address
  tokenB : Address
  pool : Address
  deriving DecidableEq, Repr

/-- Value returned by `checkPoolReserves` (line 194). -/
structure Reserves where
  reserve0 : Nat
  reserve1 : Nat
  deriving DecidableEq, Repr


/-- Lines 57-184.  The value of the `try` block is the value the function
returns: nothing follows the `try` statement. -/
def deployAndTest : Script Deployment := do
  consoleLog "🚀 Starting PolkaVM AMM Deployment and Testing..."
  let signer : Address ← await .getSigners
  consoleLog ("📝 Using account: " ++ signer)
  try
    consoleLog "\n1️⃣ Deploying Test Tokens..."
    await (.getContractFactory "TestERC20")
    let supplyA ← evalLocal (parseEther "1000000")
    let tokenA : Address ← await (.deploy "TestERC20" [.str "Token A", .str "TKNA", .num 18, .num supplyA])
    await (.deployed tokenA)
    consoleLog ("✅ Token A deployed at: " ++ tokenA)
    let supplyB ← evalLocal (parseEther "1000000")
    let tokenB : Address ← await (.deploy "TestERC20" [.str "Token B", .str "TKNB", .num 18, .num supplyB])
    await (.deployed tokenB)
    consoleLog ("✅ Token B deployed at: " ++ tokenB)
    consoleLog "\n2️⃣ Deploying AMM Factory..."
    await (.getContractFactory "UniswapV3Factory")
    let factory : Address ← await (.deploy "UniswapV3Factory" [])
    await (.deployed factory)
    consoleLog ("✅ Factory deployed at: " ++ factory)
    consoleLog "\n3️⃣ Creating Pool..."
    let createPoolTx : Tx ← await (.createPool factory tokenA tokenB 3000)
    await (.wait createPoolTx)
    let poolAddress : Address ← await (.getPool factory tokenA tokenB 3000)
    consoleLog ("✅ Pool created at: " ++ poolAddress)
    consoleLog "\n4️⃣ Adding Liquidity..."
    let liquidityAmount ← evalLocal (parseEther "1000")
    let _approveTx : Tx ← await (.approve tokenA poolAddress liquidityAmount)
    let _approveTx : Tx ← await (.approve tokenB poolAddress liquidityAmount)
    consoleLog "✅ Tokens approved"
    let addLiquidityTx : Tx ← await (.addLiquidity poolAddress liquidityAmount liquidityAmount signer)
    await (.wait addLiquidityTx)
    consoleLog "✅ Liquidity added"
    let reserves : Nat × Nat ← await (.getReserves poolAddress)
    let reserve0 := reserves.1
    let reserve1 := reserves.2
    consoleLog "📊 Pool Reserves:"
    consoleLog ("   Reserve 0: " ++ formatEther reserve0)
    consoleLog ("   Reserve 1: " ++ formatEther reserve1)
    consoleLog "\n5️⃣ Testing Swap..."
    let swapAmount ← evalLocal (parseEther "100")
    let _approveTx : Tx ← await (.approve tokenA poolAddress swapAmount)
    let expected ← evalLocal (expectedOutput reserve0 reserve1 swapAmount)
    consoleLog ("📈 Expected output: " ++ formatEther expected)
    let out1 ← evalLocal (amount1Out expected)
    let swapTx : Tx ← await (.swap poolAddress 0 out1 signer)
    await (.wait swapTx)
    consoleLog "✅ Swap completed"
    let finalReserves : Nat × Nat ← await (.getReserves poolAddress)
    let finalReserve0 := finalReserves.1
    let finalReserve1 := finalReserves.2
    consoleLog "📊 Final Pool Reserves:"
    consoleLog ("   Reserve 0: " ++ formatEther finalReserve0)
    consoleLog ("   Reserve 1: " ++ formatEther finalReserve1)
    let balanceA : Nat ← await (.balanceOf tokenA signer)
    let balanceB : Nat ← await (.balanceOf tokenB signer)
    consoleLog "💰 Your Token Balances:"
    consoleLog ("   Token A: " ++ formatEther balanceA)
    consoleLog ("   Token B: " ++ formatEther balanceB)
    consoleLog "\n🎉 Deployment and testing completed successfully!"
    pure { factory := factory, tokenA := tokenA, tokenB := tokenB, pool := poolAddress }
  catch error =>
    logError "❌ Error during deployment/testing:" error
    throw error

/-- Lines 187-195. -/
def checkPoolReserves (poolAddress : Address) : Script Reserves := do
  let _signer : Address ← await .getSigners
  let reserves : Nat × Nat ← await (.getReserves poolAddress)
  let reserve0 := reserves.1
  let reserve1 := reserves.2
  consoleLog "Pool Reserves:"
  consoleLog ("Reserve 0: " ++ formatEther reserve0)
  consoleLog ("Reserve 1: " ++ formatEther reserve1)
  return { reserve0 := reserve0, reserve1 := reserve1 }

/-- Lines 197-204. -/
def checkTokenBalance (tokenAddress userAddress : Address) : Script Nat := do
  let _signer : Address ← await .getSigners
  let balance : Nat ← await (.balanceOf tokenAddress userAddress)
  let name : String ← await (.name tokenAddress)
  consoleLog (name ++ " balance for " ++ userAddress ++ ": " ++ formatEther balance)
  return balance

/-- Lines 206-224.  The amounts are values of any kind `α` the caller may
pass, printed by their own `toString()`: `JsNumber` for a Number, `Nat` for a
BigInt (printed as its decimal numeral), `String` for a string.  A printed
amount that `parseEther` rejects makes the function throw on the spot. -/
def addLiquidityManual {α : Type} [ToString α]
    (poolAddress tokenAAddress tokenBAddress : Address)
    (amount0 amount1 : α) : Script Unit := do
  let signer : Address ← await .getSigners
  let approve0 ← evalLocal (parseEther (toString amount0))
  let _approveTx : Tx ← await (.approve tokenAAddress poolAddress approve0)
  let approve1 ← evalLocal (parseEther (toString amount1))
  let _approveTx : Tx ← await (.approve tokenBAddress poolAddress approve1)
  let deposit0 ← evalLocal (parseEther (toString amount0))
  let deposit1 ← evalLocal (parseEther (toString amount1))
  let tx : Tx ← await (.addLiquidity poolAddress deposit0 deposit1 signer)
  await (.wait tx)
  consoleLog "✅ Liquidity added successfully"

/-! ## Environments used as concrete inputs -/

/-- An environment in which every call succeeds: fixed addresses, reserves of
`1000 * 10^18` each, and transaction handles numbered by the position of the
call. -/
def happyEnv : Env := fun hist c =>
  match c with
  | .getSigners => .ok "0xS"
  | .getContractFactory _ => .ok ()
  | .deploy contractName args =>
    .ok (if contractName = "UniswapV3Factory" then "0xF"
      else if args.head? = some (.str "Token A") then "0xA" else "0xB")
  | .deployed _ => .ok ()
  | .createPool _ _ _ _ => .ok (hist.length : Tx)
  | .wait _ => .ok ()
  | .getPool _ _ _ _ => .ok "0xP"
  | .approve _ _ _ => .ok (hist.length : Tx)
  | .addLiquidity _ _ _ _ => .ok (hist.length : Tx)
  | .getReserves _ => .ok ((1000 * 10 ^ 18, 1000 * 10 ^ 18) : Nat × Nat)
  | .swap _ _ _ _ => .ok (hist.length : Tx)
  | .balanceOf _ _ => .ok (7 : Nat)
  | .name _ => .ok "Token A"

/-- The environment `happyEnv`, except that the call issued after `n` earlier
calls is rejected with `e`. -/
def failAt (n : Nat) (e : Err) : Env := fun hist c =>
  if hist.length = n then .error e else happyEnv hist c

/-! ## Confirmation of submitted transactions -/

/-- The call that waits for the confirmation of a submission: `deployed()` on
the contract a deployment resolved to, `wait()` on the transaction a
state-changing method resolved to. -/
def confirmation : Call → Value → Option Call
  | .deploy _ _, .addr a => some (.deployed a)
  | .createPool _ _ _ _, .tx t => some (.wait t)
  | .approve _ _ _, .tx t => some (.wait t)
  | .addLiquidity _ _ _ _, .tx t => some (.wait t)
  | .swap _ _ _ _, .tx t => some (.wait t)
  | _, _ => none

/-- The next remote call issued in a trace. -/
def nextCall : List Event → Option Call
  | [] => none
  | .call c _ :: _ => some c
  | _ :: rest => nextCall rest

/-- The submitted transactions whose confirmation is not the next remote call
issued after them. -/
def unconfirmed : List Event → List Call
  | [] => []
  | .call c (.resolved v) :: rest =>
    match confirmation c v with
    | some w => if nextCall rest = some w then unconfirmed rest else c :: unconfirmed rest
    | none => unconfirmed rest
  | _ :: rest => unconfirmed rest

/-! ## Reasoning about all runs -/

/-- The first rejected call of a trace, with the events before and after it. -/
def firstRejection : List Event → Option (List Event × Call × Err × List Event)
  | [] => none
  | .call c (.rejected e) :: post => some ([], c, e, post)
  | ev :: rest =>
    match firstRejection rest with
    | some (pre, c, e, post) => some (ev :: pre, c, e, post)
    | none => none

/-- Weakest precondition: `wp m Q` holds when `Q` holds of the trace and the
result of every run of `m`, whatever the remote side answers. -/
def wp {α : Type} : Script α → (List Event → Except Err α → Prop) → Prop
  | .ret a, Q => Q [] (.ok a)
  | .throw e, Q => Q [] (.error e)
  | .log l k, Q => wp k (fun t r => Q (.log l :: t) r)
  | .consoleError l e k, Q => wp k (fun t r => Q (.error l e :: t) r)
  | .call c ok err, Q =>
    (∀ r, wp (ok r) (fun t x => Q (.call c (.resolved (Resp.toValue c r)) :: t) x)) ∧
    (∀ e, wp (err e) (fun t x => Q (.call c (.rejected e) :: t) x))

/-- The same for the runs in which every call succeeds: `wpResolved m Q`
holds when every such run returns a value and `Q` holds of its trace and
that value. -/
def wpResolved {α : Type} : Script α → (List Event → α → Prop) → Prop
  | .ret a, Q => Q [] a
  | .throw _, _ => False
  | .log l k, Q => wpResolved k (fun t a => Q (.log l :: t) a)
  | .consoleError l e k, Q => wpResolved k (fun t a => Q (.error l e :: t) a)
  | .call c ok _, Q =>
    ∀ r, wpResolved (ok r) (fun t a => Q (.call c (.resolved (Resp.toValue c r)) :: t) a)

/-! # Theorems -/

/-! ## Numerals -/

theorem digitValue_digitChar (k : Nat) (hk : k < 10) : digitValue (Nat.digitChar k) = some k := by
  interval_cases k <;> rfl

theorem readDigits_append (xs ys : List Char) (acc : Nat) :
    readDigits (xs ++ ys) acc = (readDigits xs acc).bind (readDigits ys) := by
  induction xs generalizing acc with
  | nil => simp [readDigits]
  | cons c cs ih =>
    simp only [List.cons_append, readDigits]
    cases digitValue c with
    | none => simp
    | some d => simp [ih]

theorem toDigitsCore_spec (fuel : Nat) : ∀ n ds, n < fuel →
    ∃ xs, Nat.toDigitsCore 10 fuel n ds = xs ++ ds ∧ xs ≠ [] ∧ readDigits xs 0 = some n := by
  induction fuel with
  | zero => intro n ds h; omega
  | succ fuel ih =>
    intro n ds h
    simp only [Nat.toDigitsCore]
    have hd : digitValue (Nat.digitChar (n % 10)) = some (n % 10) :=
      digitValue_digitChar _ (Nat.mod_lt _ (by decide))
    split
    · rename_i h0
      refine ⟨[Nat.digitChar (n % 10)], rfl, by simp, ?_⟩
      have hn : n % 10 = n := by omega
      rw [hn] at hd
      simp [readDigits, hd, hn]
    · rename_i h0
      obtain ⟨xs, hxs, hne, hval⟩ := ih (n / 10) (Nat.digitChar (n % 10) :: ds) (by omega)
      refine ⟨xs ++ [Nat.digitChar (n % 10)], by simp [hxs], by simp, ?_⟩
      rw [readDigits_append, hval]
      simp only [Option.bind, readDigits, hd, Nat.zero_mul]
      congr 1
      omega

theorem readDecimal_toString (n : Nat) : readDecimal (toString n) = some n := by
  obtain ⟨xs, hxs, hne, hval⟩ := toDigitsCore_spec (n + 1) n [] (Nat.lt_succ_self n)
  have hdata : (toString n).data = xs := by
    show Nat.toDigitsCore 10 (n + 1) n [] = xs
    simpa using hxs
  unfold readDecimal
  rw [hdata]
  cases xs with
  | nil => exact absurd rfl hne
  | cons c cs => exact hval

theorem parseEther_nat (n : Nat) : parseEther (toString n) = .ok (n * 10 ^ 18) := by
  show utilsParseEther (toString (toString n)) = _
  have : toString (toString n) = toString n := rfl
  rw [this]
  unfold utilsParseEther
  rw [readDecimal_toString]

theorem numberToString_of_lt (x : JsNumber) (h : x.value < 10 ^ 21) :
    toString x = toString x.value := by
  show numberToString x = _
  unfold numberToString
  rw [if_pos h]

theorem parseEther_of_numeral {α : Type} [ToString α] (a : α) (n : Nat)
    (h : toString a = toString n) : parseEther (toString a) = .ok (n * 10 ^ 18) := by
  rw [h]
  exact parseEther_nat n

/-! ## The swap arithmetic -/

theorem bnDiv_pos (a b : Nat) (h : 0 < b) : bnDiv a b = .ok (a / b) := by
  unfold bnDiv
  rw [if_neg (by omega)]

theorem expectedOutput_eq (R0 R1 A : Nat) (h : 0 < R0 + A) :
    expectedOutput R0 R1 A = .ok (R1 * A / (R0 + A)) := by
  unfold expectedOutput bnMul bnAdd
  exact bnDiv_pos _ _ h

theorem amount1Out_eq (e : Nat) : amount1Out e = .ok (e * 997 / 1000) := by
  unfold amount1Out bnMul
  exact bnDiv_pos _ _ (by decide)

theorem quotient_le_reserve (R0 R1 A : Nat) : R1 * A / (R0 + A) ≤ R1 := by
  apply Nat.div_le_of_le_mul
  rw [Nat.mul_comm (R0 + A) R1]
  exact Nat.mul_le_mul_left R1 (Nat.le_add_left A R0)

theorem fee_le (e : Nat) : e * 997 / 1000 ≤ e := by omega

/-- C1: for reserves `R0`, `R1` and input `A` with `R0 + A > 0`, the expected
output computed by `deployAndTest` is `⌊R1*A/(R0+A)⌋` and the `amount1Out`
passed to `swap` is `⌊expectedOutput*997/1000⌋`, the divisions taken in that
order; with `R0 = R1 = 1000`, `A = 100` these are 90 and 89. -/
theorem swap_output_formula (R0 R1 A : Nat) (h : 0 < R0 + A) :
    expectedOutput R0 R1 A = .ok (R1 * A / (R0 + A)) ∧
    amount1Out (R1 * A / (R0 + A)) = .ok (R1 * A / (R0 + A) * 997 / 1000) ∧
    expectedOutput 1000 1000 100 = .ok 90 ∧ amount1Out 90 = .ok 89 :=
  ⟨expectedOutput_eq R0 R1 A h, amount1Out_eq _, by rfl, by rfl⟩

theorem swap_output_formula_witness :
    0 < 1000 + 100 ∧
    (expectedOutput 1000 1000 100 = .ok (1000 * 100 / (1000 + 100)) ∧
     amount1Out (1000 * 100 / (1000 + 100)) = .ok (1000 * 100 / (1000 + 100) * 997 / 1000) ∧
     expectedOutput 1000 1000 100 = .ok 90 ∧ amount1Out 90 = .ok 89) :=
  ⟨by decide, swap_output_formula 1000 1000 100 (by decide)⟩

/-- C8: the requested swap never decreases the constant product: with
`R0 + A > 0` the requested `amount1Out` is at most `R1` and
`(R0 + A) * (R1 - amount1Out) ≥ R0 * R1`. -/
theorem swap_keeps_constant_product (R0 R1 A : Nat) (h : 0 < R0 + A) :
    ∃ e out, expectedOutput R0 R1 A = .ok e ∧ amount1Out e = .ok out ∧
      out ≤ R1 ∧ R0 * R1 ≤ (R0 + A) * (R1 - out) := by
  refine ⟨_, _, expectedOutput_eq R0 R1 A h, amount1Out_eq _, ?_, ?_⟩
  · exact Nat.le_trans (fee_le _) (quotient_le_reserve R0 R1 A)
  · have hout : R1 * A / (R0 + A) * 997 / 1000 ≤ R1 * A / (R0 + A) := fee_le _
    have hq : (R0 + A) * (R1 * A / (R0 + A)) ≤ R1 * A := Nat.mul_div_le _ _
    have hle : R1 * A / (R0 + A) ≤ R1 := quotient_le_reserve R0 R1 A
    have h1 : (R0 + A) * (R1 - R1 * A / (R0 + A)) ≤
        (R0 + A) * (R1 - R1 * A / (R0 + A) * 997 / 1000) :=
      Nat.mul_le_mul_left _ (Nat.sub_le_sub_left hout R1)
    refine Nat.le_trans ?_ h1
    rw [Nat.mul_sub]
    have h2 : (R0 + A) * R1 = R0 * R1 + R1 * A := by ring
    omega

theorem swap_keeps_constant_product_witness :
    0 < 1000 + 100 ∧
    ∃ e out, expectedOutput 1000 1000 100 = .ok e ∧ amount1Out e = .ok out ∧
      out ≤ 1000 ∧ 1000 * 1000 ≤ (1000 + 100) * (1000 - out) :=
  ⟨by decide, swap_keeps_constant_product 1000 1000 100 (by decide)⟩

/-- C9: with `R0 + A > 0`, `amount1Out ≤ expectedOutput ≤ R1`; the expected
output is below `R1` when both reserves are positive; `amount1Out` is below
the expected output when that is positive; and `amount1Out < 2^256` whenever
`R1 < 2^256`. -/
theorem swap_output_bounds (R0 R1 A : Nat) (h : 0 < R0 + A) :
    ∃ e out, expectedOutput R0 R1 A = .ok e ∧ amount1Out e = .ok out ∧
      out ≤ e ∧ e ≤ R1 ∧ (0 < R0 → 0 < R1 → e < R1) ∧ (0 < e → out < e) ∧
      (R1 < 2 ^ 256 → out < 2 ^ 256) := by
  have hle : R1 * A / (R0 + A) ≤ R1 := quotient_le_reserve R0 R1 A
  refine ⟨_, _, expectedOutput_eq R0 R1 A h, amount1Out_eq _, fee_le _, hle, ?_, ?_, ?_⟩
  · intro h0 h1
    rw [Nat.div_lt_iff_lt_mul h]
    have : 0 < R1 * R0 := Nat.mul_pos h1 h0
    have h2 : R1 * (R0 + A) = R1 * R0 + R1 * A := by ring
    omega
  · intro he
    omega
  · intro hR
    exact Nat.lt_of_le_of_lt (Nat.le_trans (fee_le _) hle) hR

theorem swap_output_bounds_witness :
    0 < 1000 + 100 ∧
    ∃ e out, expectedOutput 1000 1000 100 = .ok e ∧ amount1Out e = .ok out ∧
      out ≤ e ∧ e ≤ 1000 ∧ (0 < 1000 → 0 < 1000 → e < 1000) ∧ (0 < e → out < e) ∧
      (1000 < 2 ^ 256 → out < 2 ^ 256) :=
  ⟨by decide, swap_output_bounds 1000 1000 100 (by decide)⟩

/-- C10: the swap-output computation of `deployAndTest` cannot divide by
zero: the swap amount is the constant `100 * 10^18`, so for all reserves the
first divisor is at least `100 * 10^18` and both divisions succeed, the second
divisor being 1000; for the deposited reserves `1000 * 10^18` the expected
output is 90909090909090909090 and `amount1Out` is 90636363636363636362. -/
theorem swap_never_divides_by_zero :
    parseEther "100" = .ok (100 * 10 ^ 18) ∧
    (∀ reserve0 reserve1 : Nat,
      100 * 10 ^ 18 ≤ bnAdd reserve0 (100 * 10 ^ 18) ∧
      ∃ e out, expectedOutput reserve0 reserve1 (100 * 10 ^ 18) = .ok e ∧
        amount1Out e = .ok out) ∧
    parseEther "1000" = .ok (1000 * 10 ^ 18) ∧
    expectedOutput (1000 * 10 ^ 18) (1000 * 10 ^ 18) (100 * 10 ^ 18) =
      .ok 90909090909090909090 ∧
    amount1Out 90909090909090909090 = .ok 90636363636363636362 := by
  refine ⟨by rfl, ?_, by rfl, by rfl, by rfl⟩
  intro reserve0 reserve1
  refine ⟨Nat.le_add_left _ _, _, _, expectedOutput_eq _ _ _ ?_, amount1Out_eq _⟩
  have : 0 < 100 * 10 ^ 18 := by norm_num
  omega

/-! ## Soundness of the precondition calculus -/

theorem wp_sound {α : Type} (env : Env) (m : Script α) :
    ∀ (Q : List Event → Except Err α → Prop) (hist : List Call),
      wp m Q → Q (run env m hist).trace (run env m hist).result := by
  induction m with
  | ret a => intro Q hist h; exact h
  | throw e => intro Q hist h; exact h
  | log l k ih => intro Q hist h; exact ih _ hist h
  | consoleError l e k ih => intro Q hist h; exact ih _ hist h
  | call c ok err ihok iherr =>
    intro Q hist h
    rw [run]
    cases hc : env hist c with
    | ok r => exact ihok r _ _ (h.1 r)
    | error e => exact iherr e _ _ (h.2 e)

theorem allResolved_nil : allResolved [] := by
  intro ev h; cases h

theorem allResolved_cons (ev : Event) (t : List Event) :
    allResolved (ev :: t) ↔ ev.isRejection = false ∧ allResolved t := by
  simp [allResolved]

theorem wpResolved_sound {α : Type} (env : Env) (m : Script α) :
    ∀ (Q : List Event → α → Prop) (hist : List Call),
      wpResolved m Q → allResolved (run env m hist).trace →
      ∃ a, (run env m hist).result = .ok a ∧ Q (run env m hist).trace a := by
  induction m with
  | ret a => intro Q hist h _; exact ⟨a, rfl, h⟩
  | throw e => intro Q hist h _; exact absurd h (by simp [wpResolved])
  | log l k ih =>
    intro Q hist h hres
    exact ih _ hist h ((allResolved_cons _ _).1 hres).2
  | consoleError l e k ih =>
    intro Q hist h hres
    exact ih _ hist h ((allResolved_cons _ _).1 hres).2
  | call c ok err ihok _ =>
    intro Q hist h
    rw [run]
    cases hc : env hist c with
    | ok r =>
      intro hres
      exact ihok r _ _ (h r) ((allResolved_cons _ _).1 hres).2
    | error e =>
      intro hres
      have := ((allResolved_cons _ _).1 hres).1
      simp [Event.isRejection] at this

/-! ## Normal form of the scripts -/

theorem await_bind {β : Type} (c : Call) (f : Resp c → Script β) :
    (await c >>= f) = .call c f .throw := rfl

theorem consoleLog_bind {β : Type} (l : String) (f : Unit → Script β) :
    (consoleLog l >>= f) = .log l (f ()) := rfl

theorem logError_bind {β : Type} (l : String) (e : Err) (f : Unit → Script β) :
    (logError l e >>= f) = .consoleError l e (f ()) := rfl

theorem evalLocal_ok_bind {α β : Type} (a : α) (f : α → Script β) :
    (evalLocal (.ok a) >>= f) = f a := rfl

theorem evalLocal_error_bind {α β : Type} (e : Err) (f : α → Script β) :
    (evalLocal (.error e : Except Err α) >>= f) = .throw e := rfl

theorem pure_eq_ret {α : Type} (a : α) : (pure a : Script α) = .ret a := rfl

theorem throw_eq {α : Type} (e : Err) : (throw e : Script α) = .throw e := rfl

theorem tryCatch_eq {α : Type} (m : Script α) (h : Err → Script α) :
    (tryCatch m h : Script α) = Script.tryCatch m h := rfl

theorem parseEther_supply : parseEther "1000000" = .ok (1000000 * 10 ^ 18) := rfl

theorem parseEther_liquidity : parseEther "1000" = .ok (1000 * 10 ^ 18) := rfl

theorem parseEther_swap : parseEther "100" = .ok (100 * 10 ^ 18) := rfl

theorem expectedOutput_swap (r0 r1 : Nat) :
    expectedOutput r0 r1 (100 * 10 ^ 18) = .ok (r1 * (100 * 10 ^ 18) / (r0 + 100 * 10 ^ 18)) := by
  apply expectedOutput_eq
  have : 0 < 100 * 10 ^ 18 := by norm_num
  omega

/-! ## The first rejection of a trace -/

theorem firstRejection_cons_resolved (c : Call) (v : Value) (rest : List Event) :
    firstRejection (.call c (.resolved v) :: rest) =
      match firstRejection rest with
      | some (pre, c', e, post) => some (.call c (.resolved v) :: pre, c', e, post)
      | none => none := by
  rw [firstRejection]
  all_goals simp

theorem firstRejection_cons_log (l : String) (rest : List Event) :
    firstRejection (.log l :: rest) =
      match firstRejection rest with
      | some (pre, c', e, post) => some (.log l :: pre, c', e, post)
      | none => none := by
  rw [firstRejection]
  all_goals simp

theorem firstRejection_cons_error (l : String) (e : Err) (rest : List Event) :
    firstRejection (.error l e :: rest) =
      match firstRejection rest with
      | some (pre, c', e', post) => some (.error l e :: pre, c', e', post)
      | none => none := by
  rw [firstRejection]
  all_goals simp

theorem firstRejection_cons_rejected (c : Call) (e : Err) (rest : List Event) :
    firstRejection (.call c (.rejected e) :: rest) = some ([], c, e, rest) := by
  rw [firstRejection]

theorem rejection_unique (t : List Event) :
    ∀ (pre0 : List Event) (c0 : Call) (e0 : Err) (post0 pre : List Event) (c : Call) (e : Err)
      (post : List Event),
      firstRejection t = some (pre0, c0, e0, post0) → allResolved post0 →
      t = pre ++ .call c (.rejected e) :: post →
      pre = pre0 ∧ c = c0 ∧ e = e0 ∧ post = post0 := by
  induction t with
  | nil => intro pre0 c0 e0 post0 pre c e post h; simp [firstRejection] at h
  | cons ev rest ih =>
    intro pre0 c0 e0 post0 pre c e post h hpost ht
    have key : ∀ (hev : ev.isRejection = false),
        (match firstRejection rest with
          | some (p, c', e', q) => some (ev :: p, c', e', q)
          | none => none) = some (pre0, c0, e0, post0) →
        pre = pre0 ∧ c = c0 ∧ e = e0 ∧ post = post0 := by
      intro hev hm
      cases hfr : firstRejection rest with
      | none => rw [hfr] at hm; simp at hm
      | some x =>
        obtain ⟨p, c', e', q⟩ := x
        rw [hfr] at hm
        simp only [Option.some.injEq, Prod.mk.injEq] at hm
        obtain ⟨hp, hc, he, hq⟩ := hm
        cases pre with
        | nil =>
          simp only [List.nil_append, List.cons.injEq] at ht
          rw [ht.1] at hev
          simp [Event.isRejection] at hev
        | cons x pre' =>
          simp only [List.cons_append, List.cons.injEq] at ht
          have := ih p c' e' q pre' c e post hfr (hq ▸ hpost) ht.2
          obtain ⟨h1, h2, h3, h4⟩ := this
          refine ⟨?_, h2.trans hc, h3.trans he, h4.trans hq⟩
          rw [← hp, ht.1, h1]
    cases ev with
    | log l => exact key rfl (by rw [← firstRejection_cons_log]; exact h)
    | error l e1 => exact key rfl (by rw [← firstRejection_cons_error]; exact h)
    | call c1 a =>
      cases a with
      | resolved v => exact key rfl (by rw [← firstRejection_cons_resolved]; exact h)
      | rejected e1 =>
        rw [firstRejection_cons_rejected] at h
        simp only [Option.some.injEq, Prod.mk.injEq] at h
        obtain ⟨hp, hc, he, hq⟩ := h
        cases pre with
        | nil =>
          simp only [List.nil_append, List.cons.injEq, Event.call.injEq, Answer.rejected.injEq] at ht
          exact ⟨hp, ht.1.1.symm.trans hc, ht.1.2.symm.trans he, ht.2.symm.trans hq⟩
        | cons x pre' =>
          simp only [List.cons_append, List.cons.injEq] at ht
          have hbad : allResolved rest := hq ▸ hpost
          rw [ht.2] at hbad
          have := hbad (.call c (.rejected e)) (by simp)
          simp [Event.isRejection] at this

theorem firstRejection_isSome (pre : List Event) (c : Call) (e : Err) (post : List Event) :
    ∃ x, firstRejection (pre ++ .call c (.rejected e) :: post) = some x := by
  induction pre with
  | nil => exact ⟨_, firstRejection_cons_rejected c e post⟩
  | cons ev pre ih =>
    obtain ⟨⟨p, c', e', q⟩, hx⟩ := ih
    cases ev with
    | log l => exact ⟨_, by rw [List.cons_append, firstRejection_cons_log, hx]⟩
    | error l e1 => exact ⟨_, by rw [List.cons_append, firstRejection_cons_error, hx]⟩
    | call c1 a =>
      cases a with
      | resolved v => exact ⟨_, by rw [List.cons_append, firstRejection_cons_resolved, hx]⟩
      | rejected e1 => exact ⟨_, by rw [List.cons_append, firstRejection_cons_rejected]⟩

/-- A property established for the first rejection of a trace, after which no
call is rejected, holds for every rejection of the trace. -/
theorem at_rejection (P : List Event → Call → Err → List Event → Prop)
    {t pre post : List Event} {c : Call} {e : Err}
    (hQ : match firstRejection t with
      | none => True
      | some (pre0, c0, e0, post0) => allResolved post0 ∧ P pre0 c0 e0 post0)
    (h : t = pre ++ .call c (.rejected e) :: post) : P pre c e post := by
  obtain ⟨⟨pre0, c0, e0, post0⟩, hx⟩ := firstRejection_isSome pre c e post
  rw [← h] at hx
  rw [hx] at hQ
  obtain ⟨hpost, hP⟩ := hQ
  obtain ⟨h1, h2, h3, h4⟩ := rejection_unique t pre0 c0 e0 post0 pre c e post hx hpost h
  rw [h1, h2, h3, h4]
  exact hP

/-- A property established, on every path of a script, for the first rejection
of the trace holds at every rejection of every run. -/
theorem run_at_rejection {α : Type} (env : Env) (m : Script α)
    (P : Except Err α → List Event → Call → Err → List Event → Prop)
    (hwp : wp m (fun t r => match firstRejection t with
      | none => True
      | some (pre0, c0, e0, post0) => allResolved post0 ∧ P r pre0 c0 e0 post0))
    {pre post : List Event} {c : Call} {e : Err}
    (h : (run env m []).trace = pre ++ .call c (.rejected e) :: post) :
    P (run env m []).result pre c e post :=
  at_rejection (P (run env m []).result) (wp_sound env m _ [] hwp) h

theorem noErrorLine_nil : noErrorLine [] := by
  intro ev h; cases h

theorem noErrorLine_cons (ev : Event) (t : List Event) :
    noErrorLine (ev :: t) ↔ ev.isError = false ∧ noErrorLine t := by
  simp [noErrorLine]

theorem silent_nil : silent [] := by
  intro ev h; cases h

theorem silent_cons (ev : Event) (t : List Event) :
    silent (ev :: t) ↔ (ev.isLog = false ∧ ev.isError = false) ∧ silent t := by
  simp [silent]

/-! ## Failures -/

/-- Shape of every failing run of `deployAndTest`: the rejected call is the
last call of the run and its error is the one thrown; a rejected `getSigners`
(the only call before the `try` block) ends the trace, any later rejection is
followed by exactly the line on the error console. -/
theorem deployAndTest_rejection_shape (env : Env) (pre post : List Event) (c : Call) (e : Err)
    (h : (run env deployAndTest []).trace = pre ++ .call c (.rejected e) :: post) :
    (run env deployAndTest []).result = .error e ∧ allResolved pre ∧ noErrorLine pre ∧
      ((calls pre = [] ∧ c = .getSigners ∧ post = []) ∨
       (calls pre ≠ [] ∧ post = [.error "❌ Error during deployment/testing:" e])) := by
  refine run_at_rejection env _
    (fun r pre c e post => r = .error e ∧ allResolved pre ∧ noErrorLine pre ∧
      ((calls pre = [] ∧ c = .getSigners ∧ post = []) ∨
       (calls pre ≠ [] ∧ post = [.error "❌ Error during deployment/testing:" e]))) ?_ h
  simp only [deployAndTest, parseEther_supply, parseEther_liquidity, parseEther_swap]
  simp only [expectedOutput_swap, amount1Out_eq, await_bind, consoleLog_bind, evalLocal_ok_bind,
    logError_bind, throw_eq, tryCatch_eq, pure_eq_ret, Script.tryCatch, wp,
    firstRejection_cons_resolved, firstRejection_cons_log, firstRejection_cons_rejected,
    firstRejection_cons_error, firstRejection]
  simp only [allResolved_cons, allResolved_nil, noErrorLine_cons, noErrorLine_nil,
    Event.isRejection, Event.isError, calls]
  simp

/-- C2, as stated, fails for the acquisition of the signer: when `getSigners`
is rejected with `"boom"`, `deployAndTest` throws `"boom"` and nothing is
written to the error console. -/
theorem signer_failure_is_not_logged :
    (run (failAt 0 "boom") deployAndTest []).trace =
      [.log "🚀 Starting PolkaVM AMM Deployment and Testing...",
       .call .getSigners (.rejected "boom")] ∧
    (run (failAt 0 "boom") deployAndTest []).result = .error "boom" ∧
    (run (failAt 0 "boom") deployAndTest []).trace.filter Event.isError = [] := by
  refine ⟨by rfl, by rfl, by rfl⟩

/-- C2, amended: when a remote call of `deployAndTest` is rejected with `e`,
no earlier call was rejected and `deployAndTest` throws that same `e`; if the
call is one issued inside the `try` block (any call after the acquisition of
the signer), `e` is written to the error console exactly once, as the last
event of the run; if it is the acquisition of the signer, issued before the
`try` block, nothing is written to the error console. -/
theorem deployAndTest_logs_and_rethrows (env : Env) (pre post : List Event) (c : Call) (e : Err)
    (h : (run env deployAndTest []).trace = pre ++ .call c (.rejected e) :: post) :
    (run env deployAndTest []).result = .error e ∧ allResolved pre ∧ noErrorLine pre ∧
      ((calls pre = [] ∧ c = .getSigners ∧ post = []) ∨
       (calls pre ≠ [] ∧ post = [.error "❌ Error during deployment/testing:" e])) :=
  deployAndTest_rejection_shape env pre post c e h

theorem deployAndTest_logs_and_rethrows_witness :
    (run (failAt 1 "boom") deployAndTest []).trace =
      [.log "🚀 Starting PolkaVM AMM Deployment and Testing...",
       .call .getSigners (.resolved (.addr "0xS")),
       .log "📝 Using account: 0xS",
       .log "\n1️⃣ Deploying Test Tokens..."] ++
      .call (.getContractFactory "TestERC20") (.rejected "boom") ::
      [.error "❌ Error during deployment/testing:" "boom"] ∧
    (run (failAt 1 "boom") deployAndTest []).result = .error "boom" :=
  ⟨by rfl, (deployAndTest_logs_and_rethrows (failAt 1 "boom")
    [.log "🚀 Starting PolkaVM AMM Deployment and Testing...",
     .call .getSigners (.resolved (.addr "0xS")),
     .log "📝 Using account: 0xS",
     .log "\n1️⃣ Deploying Test Tokens..."]
    [.error "❌ Error during deployment/testing:" "boom"]
    (.getContractFactory "TestERC20") "boom" (by rfl)).1⟩

/-- C7: when a remote call of a helper (`checkPoolReserves`,
`checkTokenBalance`, `addLiquidityManual` with amounts of any kind) is
rejected with `e`, the helper throws that same `e`, nothing is printed in the
run, no earlier call was rejected and no event follows the rejection; in
`deployAndTest` no call was rejected before it and no remote call follows
it. -/
theorem first_failure_stops_the_run {α : Type} [ToString α] (env : Env)
    (poolAddress tokenAddress userAddress : Address)
    (tokenAAddress tokenBAddress : Address) (amount0 amount1 : α)
    (pre post : List Event) (c : Call) (e : Err) :
    ((run env (checkPoolReserves poolAddress) []).trace = pre ++ .call c (.rejected e) :: post →
      (run env (checkPoolReserves poolAddress) []).result = .error e ∧ post = [] ∧
        allResolved pre ∧ silent pre) ∧
    ((run env (checkTokenBalance tokenAddress userAddress) []).trace =
        pre ++ .call c (.rejected e) :: post →
      (run env (checkTokenBalance tokenAddress userAddress) []).result = .error e ∧ post = [] ∧
        allResolved pre ∧ silent pre) ∧
    ((run env (addLiquidityManual poolAddress tokenAAddress tokenBAddress amount0 amount1) []).trace =
        pre ++ .call c (.rejected e) :: post →
      (run env (addLiquidityManual poolAddress tokenAAddress tokenBAddress amount0 amount1)
        []).result = .error e ∧ post = [] ∧ allResolved pre ∧ silent pre) ∧
    ((run env deployAndTest []).trace = pre ++ .call c (.rejected e) :: post →
      calls post = [] ∧ allResolved pre ∧ allResolved post) := by
  refine ⟨?_, ?_, ?_, ?_⟩
  · intro h
    refine run_at_rejection env _
      (fun r pre _ e post => r = .error e ∧ post = [] ∧ allResolved pre ∧ silent pre) ?_ h
    simp only [checkPoolReserves, await_bind, consoleLog_bind, pure_eq_ret, wp,
      firstRejection_cons_resolved, firstRejection_cons_log, firstRejection_cons_rejected,
      firstRejection]
    simp [allResolved_cons, allResolved_nil, silent_cons, silent_nil, Event.isRejection,
      Event.isLog, Event.isError]
  · intro h
    refine run_at_rejection env _
      (fun r pre _ e post => r = .error e ∧ post = [] ∧ allResolved pre ∧ silent pre) ?_ h
    simp only [checkTokenBalance, await_bind, consoleLog_bind, pure_eq_ret, wp,
      firstRejection_cons_resolved, firstRejection_cons_log, firstRejection_cons_rejected,
      firstRejection]
    simp [allResolved_cons, allResolved_nil, silent_cons, silent_nil, Event.isRejection,
      Event.isLog, Event.isError]
  · intro h
    refine run_at_rejection env _
      (fun r pre _ e post => r = .error e ∧ post = [] ∧ allResolved pre ∧ silent pre) ?_ h
    simp only [addLiquidityManual]
    cases parseEther (toString amount0) <;> cases parseEther (toString amount1) <;>
      simp only [await_bind, consoleLog_bind, evalLocal_ok_bind, evalLocal_error_bind,
        pure_eq_ret, wp, firstRejection_cons_resolved, firstRejection_cons_log,
        firstRejection_cons_rejected, firstRejection] <;>
      simp [allResolved_cons, allResolved_nil, silent_cons, silent_nil, Event.isRejection,
        Event.isLog, Event.isError]
  · intro h
    obtain ⟨-, hpre, -, hpost⟩ := deployAndTest_rejection_shape env pre post c e h
    refine ⟨?_, hpre, ?_⟩
    · rcases hpost with ⟨-, -, hp⟩ | ⟨-, hp⟩ <;> rw [hp] <;> rfl
    · rcases hpost with ⟨-, -, hp⟩ | ⟨-, hp⟩ <;> rw [hp]
      · exact allResolved_nil
      · simp [allResolved_cons, allResolved_nil, Event.isRejection]

theorem first_failure_stops_the_run_witness :
    (run (failAt 2 "boom") (checkTokenBalance "0xA" "0xU") []).trace =
      [.call .getSigners (.resolved (.addr "0xS")),
       .call (.balanceOf "0xA" "0xU") (.resolved (.num 7))] ++
      .call (.name "0xA") (.rejected "boom") :: [] ∧
    (run (failAt 2 "boom") (checkTokenBalance "0xA" "0xU") []).result = .error "boom" :=
  ⟨by rfl, ((first_failure_stops_the_run (failAt 2 "boom") "0xP" "0xA" "0xU" "0xA" "0xB"
    (JsNumber.ofSafe 5 (by decide)) (JsNumber.ofSafe 7 (by decide))
    [.call .getSigners (.resolved (.addr "0xS")),
     .call (.balanceOf "0xA" "0xU") (.resolved (.num 7))] [] (.name "0xA") "boom").2.1
    (by rfl)).1⟩

/-! ## Successful runs -/

/-- C4: when every remote call succeeds, `deployAndTest` issues the deployments
of token A and token B (18 decimals, supply `1000000 * 10^18`) and of the
factory, `createPool` and `getPool` on the same `(tokenA, tokenB, 3000)`,
the two approvals of `1000 * 10^18`, `addLiquidity`, `getReserves`, the
approval of `100 * 10^18`, `swap(0, amount1Out, signer)`, `getReserves` and
the two `balanceOf(signer)`, in this order, interleaved only with the
acquisition of the signer, the factory lookups and the confirmation waits;
it returns the addresses of the factory, of the tokens and of the pool that
`getPool` resolved to. -/
theorem deployAndTest_call_sequence (env : Env)
    (h : allResolved (run env deployAndTest []).trace) :
    ∃ (signer tokenA tokenB factory pool : Address)
      (createPoolTx approveATx approveBTx addLiquidityTx approveSwapTx swapTx : Tx)
      (reserve0 reserve1 finalReserve0 finalReserve1 balanceA balanceB : Nat),
      (run env deployAndTest []).trace.filter Event.isCall =
        [.call .getSigners (.resolved (.addr signer)),
         .call (.getContractFactory "TestERC20") (.resolved .unit),
         .call (.deploy "TestERC20"
           [.str "Token A", .str "TKNA", .num 18, .num (1000000 * 10 ^ 18)])
           (.resolved (.addr tokenA)),
         .call (.deployed tokenA) (.resolved .unit),
         .call (.deploy "TestERC20"
           [.str "Token B", .str "TKNB", .num 18, .num (1000000 * 10 ^ 18)])
           (.resolved (.addr tokenB)),
         .call (.deployed tokenB) (.resolved .unit),
         .call (.getContractFactory "UniswapV3Factory") (.resolved .unit),
         .call (.deploy "UniswapV3Factory" []) (.resolved (.addr factory)),
         .call (.deployed factory) (.resolved .unit),
         .call (.createPool factory tokenA tokenB 3000) (.resolved (.tx createPoolTx)),
         .call (.wait createPoolTx) (.resolved .unit),
         .call (.getPool factory tokenA tokenB 3000) (.resolved (.addr pool)),
         .call (.approve tokenA pool (1000 * 10 ^ 18)) (.resolved (.tx approveATx)),
         .call (.approve tokenB pool (1000 * 10 ^ 18)) (.resolved (.tx approveBTx)),
         .call (.addLiquidity pool (1000 * 10 ^ 18) (1000 * 10 ^ 18) signer)
           (.resolved (.tx addLiquidityTx)),
         .call (.wait addLiquidityTx) (.resolved .unit),
         .call (.getReserves pool) (.resolved (.pair reserve0 reserve1)),
         .call (.approve tokenA pool (100 * 10 ^ 18)) (.resolved (.tx approveSwapTx)),
         .call (.swap pool 0
           (reserve1 * (100 * 10 ^ 18) / (reserve0 + 100 * 10 ^ 18) * 997 / 1000) signer)
           (.resolved (.tx swapTx)),
         .call (.wait swapTx) (.resolved .unit),
         .call (.getReserves pool) (.resolved (.pair finalReserve0 finalReserve1)),
         .call (.balanceOf tokenA signer) (.resolved (.num balanceA)),
         .call (.balanceOf tokenB signer) (.resolved (.num balanceB))] ∧
      (calls (run env deployAndTest []).trace).filter Call.isContractCall =
        [.deploy "TestERC20" [.str "Token A", .str "TKNA", .num 18, .num (1000000 * 10 ^ 18)],
         .deploy "TestERC20" [.str "Token B", .str "TKNB", .num 18, .num (1000000 * 10 ^ 18)],
         .deploy "UniswapV3Factory" [],
         .createPool factory tokenA tokenB 3000,
         .getPool factory tokenA tokenB 3000,
         .approve tokenA pool (1000 * 10 ^ 18),
         .approve tokenB pool (1000 * 10 ^ 18),
         .addLiquidity pool (1000 * 10 ^ 18) (1000 * 10 ^ 18) signer,
         .getReserves pool,
         .approve tokenA pool (100 * 10 ^ 18),
         .swap pool 0 (reserve1 * (100 * 10 ^ 18) / (reserve0 + 100 * 10 ^ 18) * 997 / 1000) signer,
         .getReserves pool,
         .balanceOf tokenA signer,
         .balanceOf tokenB signer] ∧
      (run env deployAndTest []).result =
        .ok { factory := factory, tokenA := tokenA, tokenB := tokenB, pool := pool } := by
  have hwp : wpResolved deployAndTest (fun t a =>
      ∃ (signer tokenA tokenB factory pool : Address)
        (createPoolTx approveATx approveBTx addLiquidityTx approveSwapTx swapTx : Tx)
        (reserve0 reserve1 finalReserve0 finalReserve1 balanceA balanceB : Nat),
        t.filter Event.isCall =
          [.call .getSigners (.resolved (.addr signer)),
           .call (.getContractFactory "TestERC20") (.resolved .unit),
           .call (.deploy "TestERC20"
             [.str "Token A", .str "TKNA", .num 18, .num (1000000 * 10 ^ 18)])
             (.resolved (.addr tokenA)),
           .call (.deployed tokenA) (.resolved .unit),
           .call (.deploy "TestERC20"
             [.str "Token B", .str "TKNB", .num 18, .num (1000000 * 10 ^ 18)])
             (.resolved (.addr tokenB)),
           .call (.deployed tokenB) (.resolved .unit),
           .call (.getContractFactory "UniswapV3Factory") (.resolved .unit),
           .call (.deploy "UniswapV3Factory" []) (.resolved (.addr factory)),
           .call (.deployed factory) (.resolved .unit),
           .call (.createPool factory tokenA tokenB 3000) (.resolved (.tx createPoolTx)),
           .call (.wait createPoolTx) (.resolved .unit),
           .call (.getPool factory tokenA tokenB 3000) (.resolved (.addr pool)),
           .call (.approve tokenA pool (1000 * 10 ^ 18)) (.resolved (.tx approveATx)),
           .call (.approve tokenB pool (1000 * 10 ^ 18)) (.resolved (.tx approveBTx)),
           .call (.addLiquidity pool (1000 * 10 ^ 18) (1000 * 10 ^ 18) signer)
             (.resolved (.tx addLiquidityTx)),
           .call (.wait addLiquidityTx) (.resolved .unit),
           .call (.getReserves pool) (.resolved (.pair reserve0 reserve1)),
           .call (.approve tokenA pool (100 * 10 ^ 18)) (.resolved (.tx approveSwapTx)),
           .call (.swap pool 0
             (reserve1 * (100 * 10 ^ 18) / (reserve0 + 100 * 10 ^ 18) * 997 / 1000) signer)
             (.resolved (.tx swapTx)),
           .call (.wait swapTx) (.resolved .unit),
           .call (.getReserves pool) (.resolved (.pair finalReserve0 finalReserve1)),
           .call (.balanceOf tokenA signer) (.resolved (.num balanceA)),
           .call (.balanceOf tokenB signer) (.resolved (.num balanceB))] ∧
        (calls t).filter Call.isContractCall =
          [.deploy "TestERC20" [.str "Token A", .str "TKNA", .num 18, .num (1000000 * 10 ^ 18)],
           .deploy "TestERC20" [.str "Token B", .str "TKNB", .num 18, .num (1000000 * 10 ^ 18)],
           .deploy "UniswapV3Factory" [],
           .createPool factory tokenA tokenB 3000,
           .getPool factory tokenA tokenB 3000,
           .approve tokenA pool (1000 * 10 ^ 18),
           .approve tokenB pool (1000 * 10 ^ 18),
           .addLiquidity pool (1000 * 10 ^ 18) (1000 * 10 ^ 18) signer,
           .getReserves pool,
           .approve tokenA pool (100 * 10 ^ 18),
           .swap pool 0 (reserve1 * (100 * 10 ^ 18) / (reserve0 + 100 * 10 ^ 18) * 997 / 1000)
             signer,
           .getReserves pool,
           .balanceOf tokenA signer,
           .balanceOf tokenB signer] ∧
        a = { factory := factory, tokenA := tokenA, tokenB := tokenB, pool := pool }) := by
    simp only [deployAndTest, parseEther_supply, parseEther_liquidity, parseEther_swap]
    simp only [expectedOutput_swap, amount1Out_eq, await_bind, consoleLog_bind,
      evalLocal_ok_bind, logError_bind, throw_eq, tryCatch_eq, pure_eq_ret, Script.tryCatch,
      wpResolved]
    intro signer _ tokenA _ tokenB _ _ factory _ createPoolTx _ pool approveATx approveBTx
      addLiquidityTx _ reserves approveSwapTx swapTx _ finalReserves balanceA balanceB
    exact ⟨signer, tokenA, tokenB, factory, pool, createPoolTx, approveATx, approveBTx,
      addLiquidityTx, approveSwapTx, swapTx, reserves.1, reserves.2, finalReserves.1,
      finalReserves.2, balanceA, balanceB, rfl, rfl, rfl⟩
  obtain ⟨a, hres, signer, tokenA, tokenB, factory, pool, createPoolTx, approveATx, approveBTx,
    addLiquidityTx, approveSwapTx, swapTx, reserve0, reserve1, finalReserve0, finalReserve1,
    balanceA, balanceB, h1, h2, h3⟩ := wpResolved_sound env deployAndTest _ [] hwp h
  exact ⟨signer, tokenA, tokenB, factory, pool, createPoolTx, approveATx, approveBTx,
    addLiquidityTx, approveSwapTx, swapTx, reserve0, reserve1, finalReserve0, finalReserve1,
    balanceA, balanceB, h1, h2, h3 ▸ hres⟩

theorem happyEnv_deployAndTest_allResolved :
    allResolved (run happyEnv deployAndTest []).trace := by
  unfold allResolved
  decide

theorem deployAndTest_call_sequence_witness :
    allResolved (run happyEnv deployAndTest []).trace ∧
    ∃ d, (run happyEnv deployAndTest []).result = .ok d := by
  refine ⟨happyEnv_deployAndTest_allResolved, ?_⟩
  obtain ⟨_, _, _, _, _, _, _, _, _, _, _, _, _, _, _, _, _, -, -, h⟩ :=
    deployAndTest_call_sequence happyEnv happyEnv_deployAndTest_allResolved
  exact ⟨_, h⟩

/-- The calls of `addLiquidityManual` for amounts of any kind whose printed
form is the decimal numeral of a natural number: Numbers below `10^21`,
BigInts, numeral strings. -/
theorem addLiquidityManual_trace_of_numerals {α : Type} [ToString α] (env : Env)
    (poolAddress tokenAAddress tokenBAddress : Address) (amount0 amount1 : α) (n0 n1 : Nat)
    (h0 : toString amount0 = toString n0) (h1 : toString amount1 = toString n1)
    (h : allResolved
      (run env (addLiquidityManual poolAddress tokenAAddress tokenBAddress amount0 amount1)
        []).trace) :
    ∃ (signer : Address) (approve0Tx approve1Tx tx : Tx),
      (run env (addLiquidityManual poolAddress tokenAAddress tokenBAddress amount0 amount1)
        []).trace =
        [.call .getSigners (.resolved (.addr signer)),
         .call (.approve tokenAAddress poolAddress (n0 * 10 ^ 18)) (.resolved (.tx approve0Tx)),
         .call (.approve tokenBAddress poolAddress (n1 * 10 ^ 18)) (.resolved (.tx approve1Tx)),
         .call (.addLiquidity poolAddress (n0 * 10 ^ 18) (n1 * 10 ^ 18) signer)
           (.resolved (.tx tx)),
         .call (.wait tx) (.resolved .unit),
         .log "✅ Liquidity added successfully"] ∧
      (run env (addLiquidityManual poolAddress tokenAAddress tokenBAddress amount0 amount1)
        []).result = .ok () := by
  have hwp : wpResolved
      (addLiquidityManual poolAddress tokenAAddress tokenBAddress amount0 amount1)
      (fun t _ => ∃ (signer : Address) (approve0Tx approve1Tx tx : Tx),
        t = [.call .getSigners (.resolved (.addr signer)),
          .call (.approve tokenAAddress poolAddress (n0 * 10 ^ 18)) (.resolved (.tx approve0Tx)),
          .call (.approve tokenBAddress poolAddress (n1 * 10 ^ 18)) (.resolved (.tx approve1Tx)),
          .call (.addLiquidity poolAddress (n0 * 10 ^ 18) (n1 * 10 ^ 18) signer)
            (.resolved (.tx tx)),
          .call (.wait tx) (.resolved .unit),
          .log "✅ Liquidity added successfully"]) := by
    simp only [addLiquidityManual, parseEther_of_numeral amount0 n0 h0,
      parseEther_of_numeral amount1 n1 h1]
    simp only [await_bind, consoleLog_bind, evalLocal_ok_bind, consoleLog, wpResolved]
    intro signer approve0Tx approve1Tx tx _
    exact ⟨signer, approve0Tx, approve1Tx, tx, rfl⟩
  obtain ⟨a, hres, signer, approve0Tx, approve1Tx, tx, ht⟩ := wpResolved_sound env _ _ [] hwp h
  exact ⟨signer, approve0Tx, approve1Tx, tx, ht, hres⟩

/-- C5, as stated, fails for large amounts: the natural number `10^21` passed
as the Number `1e21` is printed by `toString()` as `1e+21`, which `parseEther`
rejects; `addLiquidityManual` then throws right after acquiring the signer,
every remote call it issued has succeeded, and no `approve` and no
`addLiquidity` is issued. -/
theorem amount_1e21_stops_before_approve :
    JsNumber.tenPow21.value = 10 ^ 21 ∧
    toString JsNumber.tenPow21 = "1e+21" ∧
    (run happyEnv (addLiquidityManual "0xP" "0xA" "0xB" JsNumber.tenPow21
      (JsNumber.ofSafe 5 (by decide))) []).trace =
      [.call .getSigners (.resolved (.addr "0xS"))] ∧
    (run happyEnv (addLiquidityManual "0xP" "0xA" "0xB" JsNumber.tenPow21
      (JsNumber.ofSafe 5 (by decide))) []).result = .error "invalid decimal value" ∧
    allResolved (run happyEnv (addLiquidityManual "0xP" "0xA" "0xB" JsNumber.tenPow21
      (JsNumber.ofSafe 5 (by decide))) []).trace := by
  refine ⟨by rfl, by decide, by decide, by rfl, ?_⟩
  unfold allResolved
  decide

/-- C5, amended: for natural-number amounts below `10^21`, passed as Numbers
that `toString()` prints digit for digit, when every remote call succeeds
`addLiquidityManual` issues, after acquiring the signer,
`approve(pool, amount0 * 10^18)` on token A, `approve(pool, amount1 * 10^18)`
on token B and `addLiquidity(amount0 * 10^18, amount1 * 10^18, signer)`, in
this order: the amount approved on each token is the amount deposited for
it, and the recipient is the signer. -/
theorem addLiquidityManual_sequence (env : Env)
    (poolAddress tokenAAddress tokenBAddress : Address) (amount0 amount1 : JsNumber)
    (h0 : amount0.value < 10 ^ 21) (h1 : amount1.value < 10 ^ 21)
    (h : allResolved
      (run env (addLiquidityManual poolAddress tokenAAddress tokenBAddress amount0 amount1)
        []).trace) :
    ∃ (signer : Address) (approve0Tx approve1Tx tx : Tx),
      (run env (addLiquidityManual poolAddress tokenAAddress tokenBAddress amount0 amount1)
        []).trace =
        [.call .getSigners (.resolved (.addr signer)),
         .call (.approve tokenAAddress poolAddress (amount0.value * 10 ^ 18))
           (.resolved (.tx approve0Tx)),
         .call (.approve tokenBAddress poolAddress (amount1.value * 10 ^ 18))
           (.resolved (.tx approve1Tx)),
         .call (.addLiquidity poolAddress (amount0.value * 10 ^ 18) (amount1.value * 10 ^ 18)
           signer) (.resolved (.tx tx)),
         .call (.wait tx) (.resolved .unit),
         .log "✅ Liquidity added successfully"] ∧
      (run env (addLiquidityManual poolAddress tokenAAddress tokenBAddress amount0 amount1)
        []).result = .ok () :=
  addLiquidityManual_trace_of_numerals env poolAddress tokenAAddress tokenBAddress amount0
    amount1 amount0.value amount1.value (numberToString_of_lt amount0 h0)
    (numberToString_of_lt amount1 h1) h

theorem addLiquidityManual_sequence_witness :
    (JsNumber.ofSafe 5 (by decide)).value < 10 ^ 21 ∧
    (JsNumber.ofSafe 7 (by decide)).value < 10 ^ 21 ∧
    allResolved (run happyEnv (addLiquidityManual "0xP" "0xA" "0xB"
      (JsNumber.ofSafe 5 (by decide)) (JsNumber.ofSafe 7 (by decide))) []).trace ∧
    (run happyEnv (addLiquidityManual "0xP" "0xA" "0xB"
      (JsNumber.ofSafe 5 (by decide)) (JsNumber.ofSafe 7 (by decide))) []).result = .ok () := by
  have hres : allResolved (run happyEnv (addLiquidityManual "0xP" "0xA" "0xB"
      (JsNumber.ofSafe 5 (by decide)) (JsNumber.ofSafe 7 (by decide))) []).trace := by
    unfold allResolved
    decide
  obtain ⟨_, _, _, _, -, h⟩ := addLiquidityManual_sequence happyEnv "0xP" "0xA" "0xB"
    (JsNumber.ofSafe 5 (by decide)) (JsNumber.ofSafe 7 (by decide)) (by decide) (by decide) hres
  exact ⟨by decide, by decide, hres, h⟩

/-- C6: when every remote call succeeds, `checkPoolReserves` returns the pair
that `getReserves` resolved to, in that order, and `checkTokenBalance`
returns the integer that `balanceOf(holder)` resolved to, after also reading
the token's name; in no run does either helper issue a state-changing call. -/
theorem read_helpers_return_remote_values (env : Env)
    (poolAddress tokenAddress userAddress : Address) :
    (allResolved (run env (checkPoolReserves poolAddress) []).trace →
      ∃ (signer : Address) (reserve0 reserve1 : Nat),
        (run env (checkPoolReserves poolAddress) []).trace =
          [.call .getSigners (.resolved (.addr signer)),
           .call (.getReserves poolAddress) (.resolved (.pair reserve0 reserve1)),
           .log "Pool Reserves:",
           .log ("Reserve 0: " ++ formatEther reserve0),
           .log ("Reserve 1: " ++ formatEther reserve1)] ∧
        (run env (checkPoolReserves poolAddress) []).result =
          .ok { reserve0 := reserve0, reserve1 := reserve1 }) ∧
    (allResolved (run env (checkTokenBalance tokenAddress userAddress) []).trace →
      ∃ (signer : Address) (balance : Nat) (name : String),
        (run env (checkTokenBalance tokenAddress userAddress) []).trace =
          [.call .getSigners (.resolved (.addr signer)),
           .call (.balanceOf tokenAddress userAddress) (.resolved (.num balance)),
           .call (.name tokenAddress) (.resolved (.str name)),
           .log (name ++ " balance for " ++ userAddress ++ ": " ++ formatEther balance)] ∧
        (run env (checkTokenBalance tokenAddress userAddress) []).result = .ok balance) ∧
    (∀ c ∈ calls (run env (checkPoolReserves poolAddress) []).trace,
      c.isStateChanging = false) ∧
    (∀ c ∈ calls (run env (checkTokenBalance tokenAddress userAddress) []).trace,
      c.isStateChanging = false) := by
  refine ⟨?_, ?_, ?_, ?_⟩
  · intro h
    have hwp : wpResolved (checkPoolReserves poolAddress) (fun t a =>
        ∃ (signer : Address) (reserve0 reserve1 : Nat),
          t = [.call .getSigners (.resolved (.addr signer)),
            .call (.getReserves poolAddress) (.resolved (.pair reserve0 reserve1)),
            .log "Pool Reserves:",
            .log ("Reserve 0: " ++ formatEther reserve0),
            .log ("Reserve 1: " ++ formatEther reserve1)] ∧
          a = { reserve0 := reserve0, reserve1 := reserve1 }) := by
      simp only [checkPoolReserves, await_bind, consoleLog_bind, pure_eq_ret, wpResolved]
      intro signer reserves
      exact ⟨signer, reserves.1, reserves.2, rfl, rfl⟩
    obtain ⟨a, hres, signer, reserve0, reserve1, ht, ha⟩ := wpResolved_sound env _ _ [] hwp h
    exact ⟨signer, reserve0, reserve1, ht, ha ▸ hres⟩
  · intro h
    have hwp : wpResolved (checkTokenBalance tokenAddress userAddress) (fun t a =>
        ∃ (signer : Address) (balance : Nat) (name : String),
          t = [.call .getSigners (.resolved (.addr signer)),
            .call (.balanceOf tokenAddress userAddress) (.resolved (.num balance)),
            .call (.name tokenAddress) (.resolved (.str name)),
            .log (name ++ " balance for " ++ userAddress ++ ": " ++ formatEther balance)] ∧
          a = balance) := by
      simp only [checkTokenBalance, await_bind, consoleLog_bind, pure_eq_ret, wpResolved]
      intro signer balance name
      exact ⟨signer, balance, name, rfl, rfl⟩
    obtain ⟨a, hres, signer, balance, name, ht, ha⟩ := wpResolved_sound env _ _ [] hwp h
    exact ⟨signer, balance, name, ht, ha ▸ hres⟩
  · refine wp_sound env (checkPoolReserves poolAddress)
      (fun t _ => ∀ c ∈ calls t, c.isStateChanging = false) [] ?_
    simp only [checkPoolReserves, await_bind, consoleLog_bind, pure_eq_ret, wp]
    simp [calls, Call.isStateChanging]
  · refine wp_sound env (checkTokenBalance tokenAddress userAddress)
      (fun t _ => ∀ c ∈ calls t, c.isStateChanging = false) [] ?_
    simp only [checkTokenBalance, await_bind, consoleLog_bind, pure_eq_ret, wp]
    simp [calls, Call.isStateChanging]

theorem read_helpers_return_remote_values_witness :
    allResolved (run happyEnv (checkPoolReserves "0xP") []).trace ∧
    allResolved (run happyEnv (checkTokenBalance "0xA" "0xU") []).trace ∧
    (∃ r, (run happyEnv (checkPoolReserves "0xP") []).result = .ok r) ∧
    (∃ b, (run happyEnv (checkTokenBalance "0xA" "0xU") []).result = .ok b) := by
  have h1 : allResolved (run happyEnv (checkPoolReserves "0xP") []).trace := by
    unfold allResolved
    decide
  have h2 : allResolved (run happyEnv (checkTokenBalance "0xA" "0xU") []).trace := by
    unfold allResolved
    decide
  have h := read_helpers_return_remote_values happyEnv "0xP" "0xA" "0xU"
  obtain ⟨_, _, _, -, hr⟩ := h.1 h1
  obtain ⟨_, _, _, -, hb⟩ := h.2.1 h2
  exact ⟨h1, h2, ⟨_, hr⟩, ⟨_, hb⟩⟩

/-! ## Confirmation of transactions -/

/-- In every run of `deployAndTest` the only submissions whose confirmation is
not awaited next are approvals. -/
theorem unconfirmed_are_approvals (env : Env) :
    ∀ c ∈ unconfirmed (run env deployAndTest []).trace,
      ∃ token spender amount, c = .approve token spender amount := by
  refine wp_sound env deployAndTest
    (fun t _ => ∀ c ∈ unconfirmed t, ∃ token spender amount, c = .approve token spender amount)
    [] ?_
  simp only [deployAndTest, parseEther_supply, parseEther_liquidity, parseEther_swap]
  simp only [expectedOutput_swap, amount1Out_eq, await_bind, consoleLog_bind, evalLocal_ok_bind,
    logError_bind, throw_eq, tryCatch_eq, pure_eq_ret, Script.tryCatch, wp]
  simp [unconfirmed, confirmation, nextCall, Resp.toValue]

/-- C3 fails for the approvals: in the run of `deployAndTest` against
`happyEnv`, and in the run of `addLiquidityManual` with the amounts 5 and 7,
every call succeeds and
each `approve` transaction is submitted without its confirmation being
awaited; the call issued right after the first approval is the second
approval.  The deployments, `createPool`, `addLiquidity` and `swap` are
confirmed before the next call. -/
theorem approvals_are_not_confirmed :
    unconfirmed (run happyEnv deployAndTest []).trace =
      [.approve "0xA" "0xP" (1000 * 10 ^ 18),
       .approve "0xB" "0xP" (1000 * 10 ^ 18),
       .approve "0xA" "0xP" (100 * 10 ^ 18)] ∧
    unconfirmed (run happyEnv (addLiquidityManual "0xP" "0xA" "0xB"
      (JsNumber.ofSafe 5 (by decide)) (JsNumber.ofSafe 7 (by decide))) []).trace =
      [.approve "0xA" "0xP" (5 * 10 ^ 18), .approve "0xB" "0xP" (7 * 10 ^ 18)] ∧
    calls (run happyEnv (addLiquidityManual "0xP" "0xA" "0xB"
      (JsNumber.ofSafe 5 (by decide)) (JsNumber.ofSafe 7 (by decide))) []).trace =
      [.getSigners,
       .approve "0xA" "0xP" (5 * 10 ^ 18),
       .approve "0xB" "0xP" (7 * 10 ^ 18),
       .addLiquidity "0xP" (5 * 10 ^ 18) (7 * 10 ^ 18) "0xS",
       .wait 3] := by
  refine ⟨by decide, by decide, by decide⟩

end InteractionScript
